import Mathlib

/-!
Shallow embedding of the ztrace receiver (receiver/ztracereceiver) core:
the tracer (`trace`, `traceHop` from tracer.go), the telemetry projections
(`convertToMetrics`, `convertToTraces` from receiver.go), the shutdown path
(`Shutdown` from receiver.go) and configuration validation (`Config.Validate`
from config.go).  Machine floats (Go float64) are modelled by exact rationals:
every arithmetic operation performed by the code on these values (comparison
with constants, maximum, millisecond truncation) is exact on the values the
program produces.  Go's `rand` draws are modelled by explicit oracle inputs,
and `time.Now()` readings and `context` cancellation by explicit parameters.
-/

namespace ZTrace

/-- Mirrors `TargetConfig` of config.go: endpoint, port, free-form tags.
Go's map iteration is modelled by an association list. -/
structure TargetConfig where
  Endpoint : String
  Port : Int
  Tags : List (String × String)
deriving DecidableEq, Repr

/-- Mirrors `Config` of config.go (durations in nanoseconds as integers). -/
structure Config where
  Targets : List TargetConfig
  CollectionInterval : Int
  Timeout : Int
  Protocol : String
  MaxHops : Int
  PacketSize : Int
  Retries : Int
  EnableGeolocation : Bool
  EnableASNLookup : Bool
deriving DecidableEq, Repr

/-- The per-target loop of `Config.Validate` (config.go): first failing
target yields its error. -/
def validateTargets (protocol : String) : List TargetConfig → Option String
  | [] => none
  | t :: rest =>
    if t.Endpoint = "" then some "endpoint cannot be empty"
    else if protocol ≠ "icmp" ∧ t.Port ≤ 0 then some "port must be specified"
    else validateTargets protocol rest

/-- The scalar checks of `Config.Validate` (config.go), performed after the
per-target loop, in source order. -/
def validateGlobals (cfg : Config) : Option String :=
  if cfg.CollectionInterval ≤ 0 then some "collection_interval must be positive"
  else if cfg.Timeout ≤ 0 then some "timeout must be positive"
  else if cfg.Protocol ≠ "udp" ∧ cfg.Protocol ≠ "icmp" ∧ cfg.Protocol ≠ "tcp" then
    some "invalid protocol, must be one of: udp, icmp, tcp"
  else if cfg.MaxHops ≤ 0 ∨ 64 < cfg.MaxHops then some "max_hops must be between 1 and 64"
  else if cfg.PacketSize ≤ 0 ∨ 65535 < cfg.PacketSize then
    some "packet_size must be between 1 and 65535"
  else if cfg.Retries < 0 then some "retries must be non-negative"
  else none

/-- Mirrors `Config.Validate` of config.go; `none` means the configuration is
accepted, `some e` is the returned error. -/
def Config.Validate (cfg : Config) : Option String :=
  if cfg.Targets = [] then some "at least one target must be specified"
  else
    match validateTargets cfg.Protocol cfg.Targets with
    | some e => some e
    | none => validateGlobals cfg

/-- Mirrors `hopInfo` of tracer.go.  float64 fields are modelled by ℚ. -/
structure HopInfo where
  ttl : Nat
  ip : String
  hostname : String
  latency : ℚ
  packetLoss : ℚ
  jitter : ℚ
  city : String
  country : String
  asn : String
  provider : String
deriving DecidableEq, Repr

/-- The Go zero value of `hopInfo` with the ttl field set, as built at the top
of `traceHop`. -/
def HopInfo.base (ttl : Nat) : HopInfo :=
  { ttl := ttl, ip := "", hostname := "", latency := 0, packetLoss := 0, jitter := 0,
    city := "", country := "", asn := "", provider := "" }

/-- Mirrors `traceResult` of tracer.go. -/
structure TraceResult where
  hops : List HopInfo
  totalLatency : ℚ
  targetReached : Bool
deriving DecidableEq, Repr

/-- Oracle for the `rand` draws consumed by one `traceHop` call; a bounded Go
draw `rand.Intn n` is recovered as `draw % n`. -/
structure Rand where
  latDraw : Nat
  lossHappens : Bool
  lossDraw : Nat
  jitterDraw : Nat
deriving DecidableEq, Repr

/-- Mirrors `traceHop` of tracer.go: the simulated per-ttl probe.  The switch
over ttl picks the simulated network segment; afterwards packet loss is drawn
with probability 0.1 (`r.lossHappens`) and jitter only when latency is
positive. -/
def traceHop (ttl : Nat) (targetAddr : String) (config : Config) (r : Rand) : HopInfo :=
  let base := HopInfo.base ttl
  let hop :=
    if ttl ≤ 3 then
      { base with ip := "192.168.1." ++ toString ttl,
                  latency := ((r.latDraw % 5 + 1 : Nat) : ℚ),
                  hostname := "router-" ++ toString ttl ++ ".local" }
    else if ttl ≤ 8 then
      let h := { base with ip := "10." ++ toString ttl ++ "." ++ toString (ttl * 10) ++ ".1",
                           latency := ((r.latDraw % 20 + 5 : Nat) : ℚ),
                           hostname := "isp-router-" ++ toString ttl ++ ".example.net" }
      if config.EnableASNLookup then
        { h with asn := "AS" ++ toString (64500 + ttl), provider := "Example ISP" }
      else h
    else if ttl ≤ 12 then
      let h := { base with ip := "203.0." ++ toString ttl ++ ".1",
                           latency := ((r.latDraw % 50 + 20 : Nat) : ℚ) }
      let h := if config.EnableGeolocation then
        { h with city := "San Francisco", country := "United States" } else h
      if config.EnableASNLookup then
        { h with asn := "AS15169", provider := "Google LLC" }
      else h
    else if 15 ≤ ttl then
      let h := { base with ip := targetAddr,
                           latency := ((r.latDraw % 100 + 50 : Nat) : ℚ),
                           hostname := "target.example.com" }
      if config.EnableGeolocation then
        { h with city := "Mountain View", country := "United States" }
      else h
    else base
  let hop := if r.lossHappens then { hop with packetLoss := ((r.lossDraw % 20 : Nat) : ℚ) } else hop
  if hop.latency > 0 then { hop with jitter := ((r.jitterDraw % 5 : Nat) : ℚ) } else hop

/-- Errors `trace` can return: failed address resolution (wrapping the
endpoint) or the context's error on cancellation/deadline. -/
inductive TraceError where
  | resolutionError (endpoint : String)
  | ctxError
deriving DecidableEq, Repr

/-- The ttl loop of `trace` (tracer.go): for each remaining ttl, first the
`ctx.Done()` check (abort with the context error), then one probe whose hop is
appended unconditionally; the loop stops returning `true` the moment the
hop's ip equals the resolved target address.  `ttls` is the list of remaining
ttl values, `acc` the hops appended so far. -/
def traceLoop (addr : String) (config : Config) (ctxDone : Nat → Bool) (rands : Nat → Rand) :
    List Nat → List HopInfo → Except TraceError (List HopInfo × Bool)
  | [], acc => .ok (acc, false)
  | ttl :: rest, acc =>
    if ctxDone ttl then .error TraceError.ctxError
    else
      let hop := traceHop ttl addr config (rands ttl)
      if hop.ip = addr then .ok (acc ++ [hop], true)
      else traceLoop addr config ctxDone rands rest (acc ++ [hop])

/-- The total-latency pass after the loop in `trace` (tracer.go): running
maximum starting from the zero value. -/
def computeTotalLatency (hops : List HopInfo) : ℚ :=
  hops.foldl (fun acc h => if h.latency > acc then h.latency else acc) 0

/-- Mirrors `trace` of tracer.go.  `resolve` models `net.ResolveIPAddr`
(`none` = resolution failure), `ctxDone ttl` models whether `ctx.Done()` has
fired when iteration `ttl` starts, `rands` supplies each probe's random
draws.  The loop runs over ttl = 1 .. MaxHops. -/
def trace (resolve : String → Option String) (ctxDone : Nat → Bool) (rands : Nat → Rand)
    (target : TargetConfig) (config : Config) : Except TraceError TraceResult :=
  match resolve target.Endpoint with
  | none => .error (TraceError.resolutionError target.Endpoint)
  | some addr =>
    match traceLoop addr config ctxDone rands (List.range' 1 config.MaxHops.toNat) [] with
    | .error e => .error e
    | .ok (hops, reached) =>
      .ok { hops := hops, totalLatency := computeTotalLatency hops, targetReached := reached }

/-- pdata attribute values used by the receiver: PutStr, PutInt, PutDouble. -/
inductive AttrVal where
  | str (s : String)
  | int (n : Int)
  | dbl (q : ℚ)
deriving DecidableEq, Repr

/-- An attribute map, as the ordered key/value sequence the code writes. -/
abbrev Attrs := List (String × AttrVal)

/-- One gauge data point (timestamp, value, attributes). -/
structure DataPoint where
  timestamp : Nat
  value : AttrVal
  attrs : Attrs
deriving DecidableEq, Repr

/-- One metric as assembled by `convertToMetrics`. -/
structure Metric where
  name : String
  descr : String
  unit : String
  dps : List DataPoint
deriving DecidableEq, Repr

/-- The metrics batch: resource attributes, scope, metric list. -/
structure MetricsBatch where
  resourceAttrs : Attrs
  scopeName : String
  scopeVersion : String
  metrics : List Metric
deriving DecidableEq, Repr

/-- Resource attributes written by `convertToMetrics` (receiver.go): target,
protocol, port when positive, then the user tags verbatim. -/
def metricsResourceAttrs (config : Config) (target : TargetConfig) : Attrs :=
  [("ztrace.target", AttrVal.str target.Endpoint),
   ("ztrace.protocol", AttrVal.str config.Protocol)]
  ++ (if 0 < target.Port then [("ztrace.port", AttrVal.int target.Port)] else [])
  ++ target.Tags.map (fun kv => (kv.1, AttrVal.str kv.2))

/-- The data-point attributes of the per-hop latency gauge in
`convertToMetrics`: ttl, ip, then hostname / geolocation / ASN under their
presence conditions. -/
def hopBaseAttrs (config : Config) (hop : HopInfo) : Attrs :=
  [("ttl", AttrVal.int (hop.ttl : Int)), ("ip", AttrVal.str hop.ip)]
  ++ (if hop.hostname ≠ "" then [("hostname", AttrVal.str hop.hostname)] else [])
  ++ (if config.EnableGeolocation ∧ hop.city ≠ "" then
        [("city", AttrVal.str hop.city), ("country", AttrVal.str hop.country)] else [])
  ++ (if config.EnableASNLookup ∧ hop.asn ≠ "" then
        [("asn", AttrVal.str hop.asn), ("provider", AttrVal.str hop.provider)] else [])

/-- The jitter gauge `convertToMetrics` appends for a hop (when it does). -/
def jitterMetric (ts : Nat) (hop : HopInfo) : Metric :=
  { name := "ztrace.hop.jitter", descr := "Jitter for each hop in the trace", unit := "ms",
    dps := [{ timestamp := ts, value := AttrVal.dbl hop.jitter,
              attrs := [("ttl", AttrVal.int (hop.ttl : Int)), ("ip", AttrVal.str hop.ip)] }] }

/-- The metrics one iteration of the per-hop loop of `convertToMetrics`
appends: the latency gauge always, the packet-loss gauge only when
packetLoss > 0, the jitter gauge only when jitter > 0. -/
def hopMetrics (config : Config) (ts : Nat) (hop : HopInfo) : List Metric :=
  [{ name := "ztrace.hop.latency", descr := "Latency for each hop in the trace", unit := "ms",
     dps := [{ timestamp := ts, value := AttrVal.dbl hop.latency,
               attrs := hopBaseAttrs config hop }] }]
  ++ (if hop.packetLoss > 0 then
      [{ name := "ztrace.hop.packet_loss", descr := "Packet loss percentage for each hop",
         unit := "%",
         dps := [{ timestamp := ts, value := AttrVal.dbl hop.packetLoss,
                   attrs := [("ttl", AttrVal.int (hop.ttl : Int)),
                             ("ip", AttrVal.str hop.ip)] }] }] else [])
  ++ (if hop.jitter > 0 then [jitterMetric ts hop] else [])

/-- The batch-level summary metrics of `convertToMetrics`: total latency only
when positive, hop count always. -/
def summaryMetrics (ts : Nat) (result : TraceResult) : List Metric :=
  (if result.totalLatency > 0 then
    [{ name := "ztrace.total_latency", descr := "Total latency to reach the target", unit := "ms",
       dps := [{ timestamp := ts, value := AttrVal.dbl result.totalLatency, attrs := [] }] }]
   else [])
  ++ [{ name := "ztrace.hop_count", descr := "Number of hops to reach the target", unit := "1",
        dps := [{ timestamp := ts, value := AttrVal.int (result.hops.length : Int),
                  attrs := [] }] }]

/-- Mirrors `convertToMetrics` of receiver.go; `ts` is the single
`time.Now()` reading used for every data point. -/
def convertToMetrics (config : Config) (result : TraceResult) (target : TargetConfig)
    (ts : Nat) : MetricsBatch :=
  { resourceAttrs := metricsResourceAttrs config target,
    scopeName := "ztrace", scopeVersion := "1.0.0",
    metrics := (result.hops.map (hopMetrics config ts)).flatten ++ summaryMetrics ts result }

/-- A span event (name, timestamp, attributes). -/
structure SpanEvent where
  name : String
  timestamp : ℚ
  attrs : Attrs
deriving DecidableEq, Repr

/-- One span as assembled by `convertToTraces`.  Identifiers are byte lists
(16 bytes for the trace id, 8 for span ids); times are milliseconds. -/
structure Span where
  name : String
  kind : String
  traceId : List Nat
  spanId : List Nat
  parentSpanId : List Nat
  startTime : ℚ
  endTime : ℚ
  attrs : Attrs
  events : List SpanEvent
deriving DecidableEq, Repr

/-- The traces batch: resource attributes, scope, span list in append order
(root first, then one span per hop). -/
structure TracesBatch where
  resourceAttrs : Attrs
  scopeName : String
  scopeVersion : String
  spans : List Span
deriving DecidableEq, Repr

/-- Go's `time.Duration(f) * time.Millisecond` on a float64 `f` of
milliseconds: the float is first truncated toward zero to an integer
nanosecond count, then scaled, so the offset applied is `f` truncated to a
whole number of milliseconds. -/
def goTruncMs (q : ℚ) : Int :=
  if 0 ≤ q then ⌊q⌋ else ⌈q⌉

/-- Resource attributes written by `convertToTraces`: target, protocol,
service.name, port when positive, then the user tags verbatim. -/
def tracesResourceAttrs (config : Config) (target : TargetConfig) : Attrs :=
  [("ztrace.target", AttrVal.str target.Endpoint),
   ("ztrace.protocol", AttrVal.str config.Protocol),
   ("service.name", AttrVal.str "ztrace")]
  ++ (if 0 < target.Port then [("ztrace.port", AttrVal.int target.Port)] else [])
  ++ target.Tags.map (fun kv => (kv.1, AttrVal.str kv.2))

/-- One hop child span of `convertToTraces`: span id `[byte ttl, 0 × 7]`,
parent = root span id, start = root start, end = start plus the hop latency
truncated to whole milliseconds; conditional attributes mirror receiver.go,
and a `high_packet_loss` event fires when packetLoss > 50. -/
def hopSpan (config : Config) (traceId rootSpanId : List Nat) (rootStart : ℚ)
    (hop : HopInfo) : Span :=
  let hopEnd := rootStart + ((goTruncMs hop.latency : Int) : ℚ)
  { name := "hop " ++ toString hop.ttl ++ ": " ++ hop.ip
    kind := "client"
    traceId := traceId
    spanId := hop.ttl % 256 :: List.replicate 7 0
    parentSpanId := rootSpanId
    startTime := rootStart
    endTime := hopEnd
    attrs := [("ttl", AttrVal.int (hop.ttl : Int)), ("ip", AttrVal.str hop.ip),
              ("latency.ms", AttrVal.dbl hop.latency)]
      ++ (if hop.hostname ≠ "" then [("hostname", AttrVal.str hop.hostname)] else [])
      ++ (if hop.packetLoss > 0 then
            [("packet_loss.percent", AttrVal.dbl hop.packetLoss)] else [])
      ++ (if hop.jitter > 0 then [("jitter.ms", AttrVal.dbl hop.jitter)] else [])
      ++ (if config.EnableGeolocation ∧ hop.city ≠ "" then
            [("geo.city", AttrVal.str hop.city), ("geo.country", AttrVal.str hop.country)]
          else [])
      ++ (if config.EnableASNLookup ∧ hop.asn ≠ "" then
            [("network.asn", AttrVal.str hop.asn),
             ("network.provider", AttrVal.str hop.provider)] else [])
    events := if hop.packetLoss > 50 then
        [{ name := "high_packet_loss", timestamp := hopEnd,
           attrs := [("packet_loss.percent", AttrVal.dbl hop.packetLoss)] }]
      else [] }

/-- Mirrors `convertToTraces` of receiver.go.  `now1` and `now2` are the two
successive `time.Now()` readings (line 257 and line 258): the root span
starts at `now1` minus the truncated total latency and ends at `now2`.
Both identifiers are the constant zero arrays the code assigns. -/
def convertToTraces (config : Config) (result : TraceResult) (target : TargetConfig)
    (now1 now2 : ℚ) : TracesBatch :=
  let traceId : List Nat := List.replicate 16 0
  let rootSpanId : List Nat := List.replicate 8 0
  let startTime := now1 - ((goTruncMs result.totalLatency : Int) : ℚ)
  let rootSpan : Span :=
    { name := "traceroute to " ++ target.Endpoint
      kind := "client"
      traceId := traceId
      spanId := rootSpanId
      parentSpanId := List.replicate 8 0
      startTime := startTime
      endTime := now2
      attrs := [("hop.count", AttrVal.int (result.hops.length : Int)),
                ("total.latency.ms", AttrVal.dbl result.totalLatency)]
      events := [] }
  { resourceAttrs := tracesResourceAttrs config target
    scopeName := "ztrace", scopeVersion := "1.0.0"
    spans := rootSpan :: result.hops.map (hopSpan config traceId rootSpanId startTime) }

/-- Observable state of a `ztraceReceiver` (receiver.go) relevant to
`Shutdown`: whether `stopOnce` has fired, whether `stopCh` is closed, the
`WaitGroup` counter (one unit per running `collect` goroutine), and whether
the tracer is still open. -/
structure ReceiverState where
  onceFired : Bool
  stopChClosed : Bool
  jobsRunning : Nat
  tracerOpen : Bool
deriving DecidableEq, Repr

/-- Go runtime panics that the shutdown path could raise. -/
inductive GoPanic where
  | closeOfClosedChannel
deriving DecidableEq, Repr

/-- `close(r.stopCh)`: closing an already-closed channel panics. -/
def closeStopCh (s : ReceiverState) : Except GoPanic ReceiverState :=
  if s.stopChClosed then .error GoPanic.closeOfClosedChannel
  else .ok { s with stopChClosed := true }

/-- `r.wg.Wait()`: every `collect` goroutine selects on `stopCh` and returns
once it is closed, so the wait drains the counter to zero exactly when the
stop channel has been closed (otherwise the wait would block and the state is
left unchanged). -/
def wgWait (s : ReceiverState) : ReceiverState :=
  if s.stopChClosed then { s with jobsRunning := 0 } else s

/-- Mirrors `Shutdown` of receiver.go: `stopOnce.Do(close stopCh)`, then
`wg.Wait()`, then `tracer.close()`; always returns a nil error (`none`). -/
def Shutdown (s : ReceiverState) : Except GoPanic (ReceiverState × Option String) :=
  let doStep : Except GoPanic ReceiverState :=
    if s.onceFired then .ok s
    else
      match closeStopCh s with
      | .error p => .error p
      | .ok s1 => .ok { s1 with onceFired := true }
  match doStep with
  | .error p => .error p
  | .ok s1 => .ok ({ wgWait s1 with tracerOpen := false }, none)

deriving instance DecidableEq for Except

/-- Erases the four enrichment fields (city, country, asn, provider) of a
hop, keeping everything else. -/
def scrubHop (h : HopInfo) : HopInfo :=
  { h with city := "", country := "", asn := "", provider := "" }

/-- Erases the enrichment fields of every hop of a result. -/
def scrubEnrichment (res : TraceResult) : TraceResult :=
  { res with hops := res.hops.map scrubHop }

/-- Concrete target used to instantiate theorems. -/
def tgtW : TargetConfig := { Endpoint := "example.com", Port := 80, Tags := [] }

/-- Concrete valid configuration used to instantiate theorems. -/
def cfgW : Config :=
  { Targets := [tgtW], CollectionInterval := 1, Timeout := 1, Protocol := "udp",
    MaxHops := 3, PacketSize := 56, Retries := 0,
    EnableGeolocation := false, EnableASNLookup := false }

/-- Concrete resolver that resolves every endpoint to 192.168.1.1 (the
address the first simulated hop reports, so the target is reached at ttl 1). -/
def resolveW : String → Option String := fun _ => some "192.168.1.1"

/-- Concrete resolver that always fails. -/
def resolveNoneW : String → Option String := fun _ => none

/-- Context that never fires. -/
def ctxFalseW : Nat → Bool := fun _ => false

/-- Context that has already fired at every iteration. -/
def ctxTrueW : Nat → Bool := fun _ => true

/-- Fixed random draws. -/
def randsW : Nat → Rand := fun _ => { latDraw := 0, lossHappens := false, lossDraw := 0, jitterDraw := 0 }

/-- The hop `trace resolveW ctxFalseW randsW tgtW cfgW` records. -/
def hopW : HopInfo :=
  { ttl := 1, ip := "192.168.1.1", hostname := "router-1.local", latency := 1,
    packetLoss := 0, jitter := 0, city := "", country := "", asn := "", provider := "" }

/-- The result of `trace resolveW ctxFalseW randsW tgtW cfgW`. -/
def resW : TraceResult := { hops := [hopW], totalLatency := 1, targetReached := true }

/-- A hop with zero latency but positive jitter (any caller may hand such a
hop to the projections). -/
def hopC1 : HopInfo :=
  { ttl := 1, ip := "10.0.0.1", hostname := "", latency := 0,
    packetLoss := 0, jitter := 1, city := "", country := "", asn := "", provider := "" }

/-- A result containing only `hopC1`. -/
def resC1 : TraceResult := { hops := [hopC1], totalLatency := 0, targetReached := false }

/-- A hop whose latency is a non-integral number of milliseconds. -/
def hopC7 : HopInfo :=
  { ttl := 1, ip := "10.0.0.1", hostname := "", latency := 5/2,
    packetLoss := 0, jitter := 0, city := "", country := "", asn := "", provider := "" }

/-- A result containing only `hopC7`, with the matching total latency. -/
def resC7 : TraceResult := { hops := [hopC7], totalLatency := 5/2, targetReached := true }

/-- A result whose hops carry populated enrichment fields. -/
def resC8 : TraceResult :=
  { hops := [{ ttl := 1, ip := "203.0.9.1", hostname := "h", latency := 3,
               packetLoss := 2, jitter := 1, city := "San Francisco",
               country := "United States", asn := "AS15169", provider := "Google LLC" }],
    totalLatency := 3, targetReached := false }

/-- A freshly started receiver: once not fired, stop channel open, two
collect goroutines running, tracer open. -/
def recvW : ReceiverState :=
  { onceFired := false, stopChClosed := false, jobsRunning := 2, tracerOpen := true }

lemma traceHop_ttl (ttl : Nat) (targetAddr : String) (config : Config) (r : Rand) :
    (traceHop ttl targetAddr config r).ttl = ttl := by
  unfold traceHop HopInfo.base
  dsimp only
  repeat' split
  all_goals rfl

lemma traceHop_latency_nonneg (ttl : Nat) (targetAddr : String) (config : Config) (r : Rand) :
    0 ≤ (traceHop ttl targetAddr config r).latency := by
  unfold traceHop HopInfo.base
  dsimp only
  repeat' split
  all_goals positivity

/-- Invariant of the ttl loop: a successful run over the ttl window
`range' t k` extends the accumulator by the probes of an initial segment
`range' t m` of that window, with the context check passing at each probed
ttl; at least one hop is probed when the window is non-empty. -/
lemma traceLoop_shape (addr : String) (config : Config) (ctxDone : Nat → Bool)
    (rands : Nat → Rand) :
    ∀ (k t : Nat) (acc hops : List HopInfo) (b : Bool),
    traceLoop addr config ctxDone rands (List.range' t k) acc = .ok (hops, b) →
    ∃ m : Nat, m ≤ k ∧ (1 ≤ k → 1 ≤ m) ∧
      hops = acc ++ (List.range' t m).map (fun ttl => traceHop ttl addr config (rands ttl)) ∧
      ∀ i ∈ List.range' t m, ctxDone i = false := by
  intro k
  induction k with
  | zero =>
    intro t acc hops b h
    simp only [List.range', traceLoop, Except.ok.injEq, Prod.mk.injEq] at h
    exact ⟨0, le_refl 0, by omega, by simp [h.1.symm], by simp⟩
  | succ k ih =>
    intro t acc hops b h
    rw [List.range'_succ] at h
    simp only [traceLoop] at h
    by_cases hc : ctxDone t
    · simp [hc] at h
    · simp only [hc, if_false, Bool.false_eq_true] at h
      by_cases hip : (traceHop t addr config (rands t)).ip = addr
      · simp only [hip, if_true, Except.ok.injEq, Prod.mk.injEq] at h
        refine ⟨1, by omega, fun _ => le_refl 1, ?_, ?_⟩
        · simpa using h.1.symm
        · intro i hi
          simp only [List.range'_succ, List.range', List.mem_singleton] at hi
          simpa [hi] using hc
      · simp only [hip, if_false] at h
        obtain ⟨m, hmk, _, hshape, hctx⟩ := ih (t + 1) (acc ++ [traceHop t addr config (rands t)]) hops b h
        refine ⟨m + 1, by omega, fun _ => by omega, ?_, ?_⟩
        · rw [List.range'_succ, List.map_cons, hshape, List.append_assoc]
          rfl
        · intro i hi
          rw [List.range'_succ] at hi
          rcases List.mem_cons.mp hi with h1 | h2
          · simpa [h1] using hc
          · exact hctx i h2

/-- Invariant of the ttl loop for the reached flag: starting from an
accumulator with no hop matching the target address, a successful run either
never matched (flag false) or matched exactly at the final appended hop
(flag true). -/
lemma traceLoop_reached (addr : String) (config : Config) (ctxDone : Nat → Bool)
    (rands : Nat → Rand) :
    ∀ (ttls : List Nat) (acc hops : List HopInfo) (b : Bool),
    traceLoop addr config ctxDone rands ttls acc = .ok (hops, b) →
    (∀ h ∈ acc, h.ip ≠ addr) →
    (b = false ∧ ∀ h ∈ hops, h.ip ≠ addr) ∨
    (b = true ∧ ∃ pre lastHop, hops = pre ++ [lastHop] ∧ lastHop.ip = addr ∧
      ∀ h ∈ pre, h.ip ≠ addr) := by
  intro ttls
  induction ttls with
  | nil =>
    intro acc hops b h hacc
    simp only [traceLoop, Except.ok.injEq, Prod.mk.injEq] at h
    exact Or.inl ⟨h.2.symm, by rw [← h.1]; exact hacc⟩
  | cons ttl rest ih =>
    intro acc hops b h hacc
    simp only [traceLoop] at h
    by_cases hc : ctxDone ttl
    · simp [hc] at h
    · simp only [hc, if_false, Bool.false_eq_true] at h
      by_cases hip : (traceHop ttl addr config (rands ttl)).ip = addr
      · simp only [hip, if_true, Except.ok.injEq, Prod.mk.injEq] at h
        exact Or.inr ⟨h.2.symm, acc, traceHop ttl addr config (rands ttl),
          h.1.symm, hip, hacc⟩
      · simp only [hip, if_false] at h
        refine ih (acc ++ [traceHop ttl addr config (rands ttl)]) hops b h ?_
        intro x hx
        rcases List.mem_append.mp hx with h1 | h2
        · exact hacc x h1
        · rw [List.mem_singleton.mp h2]
          exact hip

/-- Dissects a successful `trace` run into its resolution result, loop
result and assembled record. -/
lemma trace_ok_elim {resolve : String → Option String} {ctxDone : Nat → Bool}
    {rands : Nat → Rand} {target : TargetConfig} {config : Config} {res : TraceResult}
    (hres : trace resolve ctxDone rands target config = .ok res) :
    ∃ addr hops b, resolve target.Endpoint = some addr ∧
      traceLoop addr config ctxDone rands (List.range' 1 config.MaxHops.toNat) [] =
        .ok (hops, b) ∧
      res = { hops := hops, totalLatency := computeTotalLatency hops, targetReached := b } := by
  simp only [trace] at hres
  split at hres
  · exact absurd hres (by simp)
  · rename_i addr hr
    split at hres
    · exact absurd hres (by simp)
    · rename_i hops b hl
      simp only [Except.ok.injEq] at hres
      exact ⟨addr, hops, b, hr, hl, hres.symm⟩

lemma foldLat_init_le :
    ∀ (l : List HopInfo) (init : ℚ),
    init ≤ l.foldl (fun acc h => if h.latency > acc then h.latency else acc) init := by
  intro l
  induction l with
  | nil => intro init; simp
  | cons h t ih =>
    intro init
    rw [List.foldl_cons]
    refine le_trans ?_ (ih _)
    by_cases hgt : h.latency > init
    · simp only [hgt, if_true]
      exact le_of_lt hgt
    · simp only [hgt, if_false]
      exact le_refl init

lemma foldLat_mem_le :
    ∀ (l : List HopInfo) (init : ℚ) (x : HopInfo), x ∈ l →
    x.latency ≤ l.foldl (fun acc h => if h.latency > acc then h.latency else acc) init := by
  intro l
  induction l with
  | nil => intro init x hx; simp at hx
  | cons h t ih =>
    intro init x hx
    rw [List.foldl_cons]
    rcases List.mem_cons.mp hx with h1 | h2
    · subst h1
      refine le_trans ?_ (foldLat_init_le t _)
      by_cases hgt : x.latency > init
      · simp [hgt]
      · simp only [hgt, if_false]
        exact le_of_not_lt hgt
    · exact ih _ x h2

lemma foldLat_eq_init_or_mem :
    ∀ (l : List HopInfo) (init : ℚ),
    l.foldl (fun acc h => if h.latency > acc then h.latency else acc) init = init ∨
    ∃ x ∈ l, l.foldl (fun acc h => if h.latency > acc then h.latency else acc) init
      = x.latency := by
  intro l
  induction l with
  | nil => intro init; exact Or.inl rfl
  | cons h t ih =>
    intro init
    rw [List.foldl_cons]
    by_cases hgt : h.latency > init
    · simp only [hgt, if_true]
      rcases ih h.latency with h1 | ⟨x, hx, h2⟩
      · exact Or.inr ⟨h, List.mem_cons_self h t, h1⟩
      · exact Or.inr ⟨x, List.mem_cons_of_mem h hx, h2⟩
    · simp only [hgt, if_false]
      rcases ih init with h1 | ⟨x, hx, h2⟩
      · exact Or.inl h1
      · exact Or.inr ⟨x, List.mem_cons_of_mem h hx, h2⟩

/-- C3: for every TraceResult produced by `trace`, the totalLatency field is
the maximum of the hop latencies over all recorded hops (all of which are
non-negative): it bounds every hop latency and is attained by some hop
whenever hops were recorded; in particular it is 0 when every hop latency is
0, and zero-latency hops do not affect it. -/
theorem trace_totalLatency_is_max
    (resolve : String → Option String) (ctxDone : Nat → Bool) (rands : Nat → Rand)
    (target : TargetConfig) (config : Config) (res : TraceResult)
    (hres : trace resolve ctxDone rands target config = .ok res) :
    (∀ h ∈ res.hops, 0 ≤ h.latency) ∧
    (∀ h ∈ res.hops, h.latency ≤ res.totalLatency) ∧
    (res.hops = [] → res.totalLatency = 0) ∧
    (res.hops ≠ [] → ∃ h ∈ res.hops, res.totalLatency = h.latency) ∧
    ((∀ h ∈ res.hops, h.latency = 0) → res.totalLatency = 0) := by
  obtain ⟨addr, hops, b, hr, hl, hresEq⟩ := trace_ok_elim hres
  subst hresEq
  obtain ⟨m, hm, h1m, hshape, hctx⟩ :=
    traceLoop_shape addr config ctxDone rands _ 1 [] hops b hl
  simp only [List.nil_append] at hshape
  dsimp only
  have hnonneg : ∀ h ∈ hops, 0 ≤ h.latency := by
    intro h hh
    rw [hshape] at hh
    obtain ⟨ttl, _, rfl⟩ := List.mem_map.mp hh
    exact traceHop_latency_nonneg ttl addr config (rands ttl)
  refine ⟨hnonneg, ?_, ?_, ?_, ?_⟩
  · intro h hh
    exact foldLat_mem_le hops 0 h hh
  · intro h0
    simp [computeTotalLatency, h0]
  · intro hne
    rcases foldLat_eq_init_or_mem hops 0 with heq | ⟨x, hx, heq⟩
    · obtain ⟨h0, hh0⟩ := List.exists_mem_of_ne_nil hops hne
      have hle : h0.latency ≤ 0 := by
        have hb := foldLat_mem_le hops 0 h0 hh0
        rw [heq] at hb
        exact hb
      have h0z : h0.latency = 0 := le_antisymm hle (hnonneg h0 hh0)
      refine ⟨h0, hh0, ?_⟩
      rw [h0z]
      exact heq
    · exact ⟨x, hx, heq⟩
  · intro hall
    rcases foldLat_eq_init_or_mem hops 0 with heq | ⟨x, hx, heq⟩
    · exact heq
    · exact heq.trans (hall x hx)

/-- Witness for C3 at a concrete run: one hop of latency 1, totalLatency 1. -/
theorem trace_totalLatency_is_max_witness :
    hopW.latency ≤ resW.totalLatency :=
  (trace_totalLatency_is_max resolveW ctxFalseW randsW tgtW cfgW resW (by decide)).2.1
    hopW (by decide)

/-- C4: if a recorded hop's resolved address equals the target's resolved
address, the run reports targetReached, that hop is the last recorded hop,
no earlier hop matched (lowest ttl wins), and every recorded hop's ttl is at
most the matching hop's ttl (nothing beyond it was probed or appended). -/
theorem trace_target_reached_first
    (resolve : String → Option String) (ctxDone : Nat → Bool) (rands : Nat → Rand)
    (target : TargetConfig) (config : Config) (res : TraceResult) (addr : String)
    (h : HopInfo)
    (hr : resolve target.Endpoint = some addr)
    (hres : trace resolve ctxDone rands target config = .ok res)
    (hmem : h ∈ res.hops) (hip : h.ip = addr) :
    res.targetReached = true ∧ res.hops.getLast? = some h ∧
    (∀ h2 ∈ res.hops.dropLast, h2.ip ≠ addr) ∧
    (∀ h2 ∈ res.hops, h2.ttl ≤ h.ttl) := by
  obtain ⟨addr', hops, b, hr', hl, hresEq⟩ := trace_ok_elim hres
  rw [hr] at hr'
  injection hr' with hr''
  subst hr''
  subst hresEq
  dsimp only at hmem ⊢
  obtain ⟨m, hm, h1m, hshape, hctx⟩ :=
    traceLoop_shape addr config ctxDone rands _ 1 [] hops b hl
  simp only [List.nil_append] at hshape
  rcases traceLoop_reached addr config ctxDone rands _ [] hops b hl (by simp) with
    ⟨hb, hnone⟩ | ⟨hb, pre, lastHop, hsplit, hlip, hpre⟩
  · exact absurd hip (hnone h hmem)
  · have hhlast : h = lastHop := by
      rw [hsplit] at hmem
      rcases List.mem_append.mp hmem with h1 | h2
      · exact absurd hip (hpre h h1)
      · exact List.mem_singleton.mp h2
    subst hhlast
    have hlen : hops.length = m := by
      rw [hshape, List.length_map, List.length_range']
    have hmpos : 0 < m := by
      rw [← hlen, hsplit]
      simp
    have httl : ∀ (i : Nat) (hi : i < hops.length), (hops.get ⟨i, hi⟩).ttl = 1 + i := by
      intro i hi
      have hi' : i < m := by omega
      simp only [hshape, List.get_eq_getElem, List.getElem_map, List.getElem_range']
      rw [traceHop_ttl]
      ring
    have hplen : hops.length = pre.length + 1 := by
      rw [hsplit]
      simp
    have hlast_idx : hops.get ⟨pre.length, by omega⟩ = h := by
      simp only [List.get_eq_getElem, hsplit]
      exact List.getElem_concat_length pre h _ rfl _
    have httl_last : h.ttl = m := by
      have h4 := httl pre.length (by omega)
      rw [hlast_idx] at h4
      omega
    refine ⟨hb, by rw [hsplit]; exact List.getLast?_concat pre, ?_, ?_⟩
    · rw [hsplit, List.dropLast_concat]
      exact hpre
    · intro h2 hh2
      obtain ⟨i, hgot⟩ := List.mem_iff_get.mp hh2
      have h5 : (hops.get i).ttl = 1 + i.1 := httl i.1 i.2
      have h6 : i.1 < hops.length := i.2
      rw [← hgot, h5, httl_last]
      omega

/-- Witness for C4 at a concrete run reaching the target at ttl 1. -/
theorem trace_target_reached_first_witness :
    resW.targetReached = true ∧ resW.hops.getLast? = some hopW :=
  have h := trace_target_reached_first resolveW ctxFalseW randsW tgtW cfgW resW
    "192.168.1.1" hopW (by decide) (by decide) (by decide) (by decide)
  ⟨h.1, h.2.1⟩

/-- C5: a successful run with MaxHops ≥ 1 records between 1 and MaxHops
hops, and the ttl values of the recorded hops form the contiguous ascending
sequence 1, 2, ..., n (non-responding hops are appended like any other, so
there are no gaps). -/
theorem trace_hops_contiguous
    (resolve : String → Option String) (ctxDone : Nat → Bool) (rands : Nat → Rand)
    (target : TargetConfig) (config : Config) (res : TraceResult)
    (hmax : 1 ≤ config.MaxHops)
    (hres : trace resolve ctxDone rands target config = .ok res) :
    (res.hops.length : Int) ≤ config.MaxHops ∧ res.hops ≠ [] ∧
    ∀ (i : Nat) (hi : i < res.hops.length), (res.hops.get ⟨i, hi⟩).ttl = i + 1 := by
  obtain ⟨addr, hops, b, hr, hl, hresEq⟩ := trace_ok_elim hres
  subst hresEq
  dsimp only
  obtain ⟨m, hm, h1m, hshape, hctx⟩ :=
    traceLoop_shape addr config ctxDone rands _ 1 [] hops b hl
  simp only [List.nil_append] at hshape
  have hlen : hops.length = m := by
    rw [hshape, List.length_map, List.length_range']
  have hmpos : 1 ≤ m := h1m (by omega)
  refine ⟨by omega, ?_, ?_⟩
  · intro hnil
    rw [hnil] at hlen
    simp at hlen
    omega
  · intro i hi
    simp only [hshape, List.get_eq_getElem, List.getElem_map, List.getElem_range']
    rw [traceHop_ttl]
    omega

/-- Witness for C5 at a concrete run (MaxHops 3, one recorded hop). -/
theorem trace_hops_contiguous_witness :
    (resW.hops.length : Int) ≤ cfgW.MaxHops ∧ resW.hops ≠ [] :=
  have h := trace_hops_contiguous resolveW ctxFalseW randsW tgtW cfgW resW
    (by decide) (by decide)
  ⟨h.1, h.2.1⟩

/-- C6: `trace` is atomic: a resolution failure returns the resolution error
and nothing else; a cancellation already fired at the first iteration returns
the context error and nothing else; and a successful run implies resolution
succeeded and the context check passed at every recorded hop's ttl (so no
result survives a fired cancellation). -/
theorem trace_atomic_errors
    (resolve : String → Option String) (ctxDone : Nat → Bool) (rands : Nat → Rand)
    (target : TargetConfig) (config : Config) :
    (resolve target.Endpoint = none →
      trace resolve ctxDone rands target config
        = .error (TraceError.resolutionError target.Endpoint)) ∧
    (∀ addr, resolve target.Endpoint = some addr → 1 ≤ config.MaxHops →
      ctxDone 1 = true →
      trace resolve ctxDone rands target config = .error TraceError.ctxError) ∧
    (∀ res, trace resolve ctxDone rands target config = .ok res →
      (∃ addr, resolve target.Endpoint = some addr) ∧
      ∀ h ∈ res.hops, ctxDone h.ttl = false) := by
  refine ⟨?_, ?_, ?_⟩
  · intro hnone
    unfold trace
    rw [hnone]
  · intro addr hsome hmax hctx
    unfold trace
    rw [hsome]
    obtain ⟨k, hk⟩ : ∃ k, config.MaxHops.toNat = k + 1 := ⟨config.MaxHops.toNat - 1, by omega⟩
    rw [hk, List.range'_succ]
    simp [traceLoop, hctx]
  · intro res hres
    obtain ⟨addr, hops, b, hr, hl, hresEq⟩ := trace_ok_elim hres
    subst hresEq
    dsimp only
    obtain ⟨m, hm, h1m, hshape, hctx⟩ :=
      traceLoop_shape addr config ctxDone rands _ 1 [] hops b hl
    simp only [List.nil_append] at hshape
    refine ⟨⟨addr, hr⟩, ?_⟩
    intro h hh
    rw [hshape] at hh
    obtain ⟨ttl, httl, rfl⟩ := List.mem_map.mp hh
    rw [traceHop_ttl]
    exact hctx ttl httl

/-- Witness for C6: a failing resolver yields the resolution error, and an
already-fired context yields the context error, at concrete inputs. -/
theorem trace_atomic_errors_witness :
    trace resolveNoneW ctxFalseW randsW tgtW cfgW
      = .error (TraceError.resolutionError "example.com") ∧
    trace resolveW ctxTrueW randsW tgtW cfgW = .error TraceError.ctxError :=
  ⟨(trace_atomic_errors resolveNoneW ctxFalseW randsW tgtW cfgW).1 (by decide),
   (trace_atomic_errors resolveW ctxTrueW randsW tgtW cfgW).2.1 "192.168.1.1"
     (by decide) (by decide) (by decide)⟩

lemma filter_jitter_hopMetrics (config : Config) (ts : Nat) (hop : HopInfo) :
    (hopMetrics config ts hop).filter (fun m => m.name == "ztrace.hop.jitter")
      = if hop.jitter > 0 then [jitterMetric ts hop] else [] := by
  have h1 : (("ztrace.hop.latency" : String) == "ztrace.hop.jitter") = false := by decide
  have h2 : (("ztrace.hop.packet_loss" : String) == "ztrace.hop.jitter") = false := by decide
  have h3 : (("ztrace.hop.jitter" : String) == "ztrace.hop.jitter") = true := by decide
  unfold hopMetrics
  by_cases hp : hop.packetLoss > 0 <;> by_cases hj : hop.jitter > 0 <;>
    simp [hp, hj, jitterMetric, h1, h2, h3]

lemma filter_jitter_summary (ts : Nat) (result : TraceResult) :
    (summaryMetrics ts result).filter (fun m => m.name == "ztrace.hop.jitter") = [] := by
  have h4 : (("ztrace.total_latency" : String) == "ztrace.hop.jitter") = false := by decide
  have h5 : (("ztrace.hop_count" : String) == "ztrace.hop.jitter") = false := by decide
  unfold summaryMetrics
  by_cases ht : result.totalLatency > 0 <;> simp [ht, h4, h5]

lemma filter_jitter_flatten (config : Config) (ts : Nat) (l : List HopInfo) :
    ((l.map (hopMetrics config ts)).flatten).filter (fun m => m.name == "ztrace.hop.jitter")
      = (l.filter (fun h => decide (h.jitter > 0))).map (jitterMetric ts) := by
  induction l with
  | nil => simp
  | cons h t ih =>
    simp only [List.map_cons, List.flatten_cons, List.filter_append, ih, List.filter_cons]
    rw [filter_jitter_hopMetrics]
    by_cases hj : h.jitter > 0
    · simp [hj]
    · simp [hj]

/-- C1 (amended): in `convertToMetrics` a jitter gauge sample is emitted for
a hop exactly when that hop's jitter field is greater than zero, regardless
of its latency: the jitter metrics of the batch are precisely one
`ztrace.hop.jitter` gauge per positive-jitter hop, in hop order, carrying
that hop's jitter value. -/
theorem convertToMetrics_jitter_emission (config : Config) (result : TraceResult)
    (target : TargetConfig) (ts : Nat) :
    (convertToMetrics config result target ts).metrics.filter
        (fun m => m.name == "ztrace.hop.jitter")
      = (result.hops.filter (fun h => decide (h.jitter > 0))).map (jitterMetric ts) := by
  unfold convertToMetrics
  dsimp only
  rw [List.filter_append, filter_jitter_flatten, filter_jitter_summary, List.append_nil]

/-- C1 counterexample: a hop with latency 0 and jitter 1 does produce a
jitter gauge sample, refuting "a hop with latency = 0 yields no jitter
metric sample regardless of the value of its jitter field". -/
theorem convertToMetrics_jitter_zero_latency_cex :
    hopC1.latency = 0 ∧ resC1.hops = [hopC1] ∧
    ((convertToMetrics cfgW resC1 tgtW 0).metrics.filter
        (fun m => m.name == "ztrace.hop.jitter")).length = 1 := by
  decide

/-- C2 (identity gap in the code): every span of every batch produced by
`convertToTraces` carries the constant all-zero 16-byte trace id, so trace
identifiers coincide — rather than being distinct — across any two runs. -/
theorem convertToTraces_traceId_constant (config : Config) (result : TraceResult)
    (target : TargetConfig) (now1 now2 : ℚ) :
    ∀ s ∈ (convertToTraces config result target now1 now2).spans,
      s.traceId = List.replicate 16 0 := by
  intro s hs
  unfold convertToTraces at hs
  dsimp only at hs
  rcases List.mem_cons.mp hs with h | h
  · rw [h]
  · obtain ⟨hop, _, rfl⟩ := List.mem_map.mp h
    rfl

/-- Witness for C2 at a concrete batch. -/
theorem convertToTraces_traceId_constant_witness :
    ((convertToTraces cfgW resW tgtW 0 0).spans.get ⟨0, by decide⟩).traceId
      = List.replicate 16 0 :=
  convertToTraces_traceId_constant cfgW resW tgtW 0 0 _
    (List.get_mem _ 0 (by decide))

/-- C9: `Shutdown` is idempotent: on a freshly started receiver the first
call closes the stop channel (exactly once), drains the job counter to zero
and returns a nil error; a second call on the resulting state performs no
further close (so no double-close panic), returns a nil error and leaves the
state unchanged. -/
theorem Shutdown_idempotent (s : ReceiverState)
    (honce : s.onceFired = false) (hch : s.stopChClosed = false) :
    Shutdown s = .ok ({ onceFired := true, stopChClosed := true,
                        jobsRunning := 0, tracerOpen := false }, none) ∧
    Shutdown { onceFired := true, stopChClosed := true,
               jobsRunning := 0, tracerOpen := false }
      = .ok ({ onceFired := true, stopChClosed := true,
               jobsRunning := 0, tracerOpen := false }, none) := by
  constructor
  · simp [Shutdown, closeStopCh, wgWait, honce, hch]
  · decide

/-- Witness for C9 at a concrete freshly started receiver. -/
theorem Shutdown_idempotent_witness :
    Shutdown recvW = .ok ({ onceFired := true, stopChClosed := true,
                            jobsRunning := 0, tracerOpen := false }, none) :=
  (Shutdown_idempotent recvW (by decide) (by decide)).1

lemma goTruncMs_intCast (n : ℤ) : goTruncMs (n : ℚ) = n := by
  unfold goTruncMs
  split
  · exact Int.floor_intCast n
  · exact Int.ceil_intCast n

/-- C7 counterexample: with a hop latency of 5/2 ms (and totalLatency 5/2),
the hop child span's duration is 2 ms, not 5/2, and so is the root span's
duration even with coincident clock readings: Go truncates the float
millisecond value to a whole number of milliseconds. -/
theorem convertToTraces_duration_cex :
    hopC7.latency = 5/2 ∧ resC7.totalLatency = 5/2 ∧
    ((convertToTraces cfgW resC7 tgtW 1000 1000).spans.get ⟨1, by decide⟩).endTime
        - ((convertToTraces cfgW resC7 tgtW 1000 1000).spans.get ⟨1, by decide⟩).startTime
      ≠ hopC7.latency ∧
    ((convertToTraces cfgW resC7 tgtW 1000 1000).spans.get ⟨0, by decide⟩).endTime
        - ((convertToTraces cfgW resC7 tgtW 1000 1000).spans.get ⟨0, by decide⟩).startTime
      ≠ resC7.totalLatency := by
  refine ⟨rfl, rfl, ?_, ?_⟩ <;>
    · simp only [convertToTraces, hopSpan, hopC7, resC7, cfgW, tgtW, goTruncMs,
        List.map_cons, List.map_nil, List.get_eq_getElem, List.getElem_cons_succ,
        List.getElem_cons_zero]
      norm_num

/-- C7 (amended): relative to a single observation instant (the two
`time.Now()` readings coincide), the root span's duration equals the total
latency truncated to whole milliseconds — equal to totalLatency itself
whenever that value is integral; the hop child spans appear in hop order,
each starts at the root's start time, lasts its hop's latency truncated to
whole milliseconds — the hop latency itself whenever integral — and is
parented to the root span. -/
theorem convertToTraces_span_timing (config : Config) (result : TraceResult)
    (target : TargetConfig) (now1 now2 : ℚ) (hclock : now2 = now1) :
    ∃ root children,
      (convertToTraces config result target now1 now2).spans = root :: children ∧
      root.endTime - root.startTime = ((goTruncMs result.totalLatency : Int) : ℚ) ∧
      ((∃ n : ℤ, result.totalLatency = (n : ℚ)) →
        root.endTime - root.startTime = result.totalLatency) ∧
      children = result.hops.map
        (hopSpan config (List.replicate 16 0) (List.replicate 8 0) root.startTime) ∧
      ∀ (i : Nat) (hi : i < children.length), ∃ hj : i < result.hops.length,
        (children.get ⟨i, hi⟩).startTime = root.startTime ∧
        (children.get ⟨i, hi⟩).endTime - (children.get ⟨i, hi⟩).startTime
          = ((goTruncMs (result.hops.get ⟨i, hj⟩).latency : Int) : ℚ) ∧
        ((∃ n : ℤ, (result.hops.get ⟨i, hj⟩).latency = (n : ℚ)) →
          (children.get ⟨i, hi⟩).endTime - (children.get ⟨i, hi⟩).startTime
            = (result.hops.get ⟨i, hj⟩).latency) ∧
        (children.get ⟨i, hi⟩).parentSpanId = root.spanId := by
  subst hclock
  refine ⟨_, _, rfl, ?_, ?_, rfl, ?_⟩
  · dsimp only [convertToTraces]
    ring
  · intro ⟨n, hn⟩
    dsimp only [convertToTraces]
    rw [hn, goTruncMs_intCast]
    ring
  · intro i hi
    have hj : i < result.hops.length := by
      simpa using hi
    refine ⟨hj, ?_, ?_, ?_, ?_⟩
    · simp only [List.get_eq_getElem, List.getElem_map]
      rfl
    · simp only [List.get_eq_getElem, List.getElem_map]
      dsimp only [hopSpan]
      ring
    · intro ⟨n, hn⟩
      simp only [List.get_eq_getElem, List.getElem_map]
      dsimp only [hopSpan]
      rw [List.get_eq_getElem] at hn
      rw [hn, goTruncMs_intCast]
      ring
    · simp only [List.get_eq_getElem, List.getElem_map]
      rfl

/-- Witness for C7 at a concrete batch with coincident clock readings. -/
theorem convertToTraces_span_timing_witness :
    ∃ root children, (convertToTraces cfgW resW tgtW 7 7).spans = root :: children ∧
      root.endTime - root.startTime = ((goTruncMs resW.totalLatency : Int) : ℚ) := by
  obtain ⟨root, children, h1, h2, _⟩ := convertToTraces_span_timing cfgW resW tgtW 7 7 rfl
  exact ⟨root, children, h1, h2⟩

lemma hopMetrics_scrub (config : Config) (ts : Nat) (hop : HopInfo)
    (hgeo : config.EnableGeolocation = false) (hasn : config.EnableASNLookup = false) :
    hopMetrics config ts (scrubHop hop) = hopMetrics config ts hop := by
  simp [hopMetrics, jitterMetric, hopBaseAttrs, scrubHop, hgeo, hasn]

lemma convertToMetrics_scrub (config : Config) (result : TraceResult)
    (target : TargetConfig) (ts : Nat)
    (hgeo : config.EnableGeolocation = false) (hasn : config.EnableASNLookup = false) :
    convertToMetrics config (scrubEnrichment result) target ts
      = convertToMetrics config result target ts := by
  unfold convertToMetrics scrubEnrichment summaryMetrics
  dsimp only
  rw [List.map_map, List.length_map]
  have hmap : List.map (hopMetrics config ts ∘ scrubHop) result.hops
      = List.map (hopMetrics config ts) result.hops :=
    List.map_congr_left (fun h _ => hopMetrics_scrub config ts h hgeo hasn)
  rw [hmap]

lemma hopSpan_scrub (config : Config) (tid rid : List Nat) (rs : ℚ) (hop : HopInfo)
    (hgeo : config.EnableGeolocation = false) (hasn : config.EnableASNLookup = false) :
    hopSpan config tid rid rs (scrubHop hop) = hopSpan config tid rid rs hop := by
  simp [hopSpan, scrubHop, hgeo, hasn]

lemma convertToTraces_scrub (config : Config) (result : TraceResult)
    (target : TargetConfig) (now1 now2 : ℚ)
    (hgeo : config.EnableGeolocation = false) (hasn : config.EnableASNLookup = false) :
    convertToTraces config (scrubEnrichment result) target now1 now2
      = convertToTraces config result target now1 now2 := by
  unfold convertToTraces scrubEnrichment
  dsimp only
  rw [List.map_map, List.length_map]
  have hmap : ∀ rs : ℚ,
      List.map (hopSpan config (List.replicate 16 0) (List.replicate 8 0) rs ∘ scrubHop)
          result.hops
        = List.map (hopSpan config (List.replicate 16 0) (List.replicate 8 0) rs)
            result.hops :=
    fun rs => List.map_congr_left (fun h _ => hopSpan_scrub config _ _ rs h hgeo hasn)
  rw [hmap]

lemma hopBaseAttrs_keys (config : Config) (hop : HopInfo)
    (hgeo : config.EnableGeolocation = false) (hasn : config.EnableASNLookup = false) :
    ∀ kv ∈ hopBaseAttrs config hop, kv.1 = "ttl" ∨ kv.1 = "ip" ∨ kv.1 = "hostname" := by
  intro kv hkv
  unfold hopBaseAttrs at hkv
  simp only [hgeo, hasn, Bool.false_eq_true, false_and, if_false, List.append_nil,
    List.mem_append, List.mem_cons, List.mem_singleton, List.not_mem_nil, or_false,
    or_assoc] at hkv
  rcases hkv with rfl | rfl | hkv
  · simp
  · simp
  · split at hkv
    · rw [List.mem_singleton.mp hkv]
      simp
    · simp at hkv

lemma hopMetrics_dp_attrs (config : Config) (ts : Nat) (hop : HopInfo) :
    ∀ m ∈ hopMetrics config ts hop, ∀ dp ∈ m.dps,
      dp.attrs = hopBaseAttrs config hop ∨
      dp.attrs = [("ttl", AttrVal.int (hop.ttl : Int)), ("ip", AttrVal.str hop.ip)] := by
  intro m hm dp hdp
  unfold hopMetrics jitterMetric at hm
  simp only [List.mem_append, List.mem_singleton, or_assoc] at hm
  rcases hm with rfl | hm | hm
  · simp only [List.mem_singleton] at hdp
    subst hdp
    exact Or.inl rfl
  · split at hm
    · have hml := List.mem_singleton.mp hm
      subst hml
      simp only [List.mem_singleton] at hdp
      subst hdp
      exact Or.inr rfl
    · simp at hm
  · split at hm
    · have hmj := List.mem_singleton.mp hm
      subst hmj
      simp only [List.mem_singleton] at hdp
      subst hdp
      exact Or.inr rfl
    · simp at hm

lemma summaryMetrics_dp_attrs (ts : Nat) (result : TraceResult) :
    ∀ m ∈ summaryMetrics ts result, ∀ dp ∈ m.dps, dp.attrs = [] := by
  intro m hm dp hdp
  unfold summaryMetrics at hm
  simp only [List.mem_append, List.mem_singleton, or_assoc] at hm
  rcases hm with hm | rfl
  · split at hm
    · have hmt := List.mem_singleton.mp hm
      subst hmt
      simp only [List.mem_singleton] at hdp
      subst hdp
      rfl
    · simp at hm
  · simp only [List.mem_singleton] at hdp
    subst hdp
    rfl

lemma hopSpan_attr_keys (config : Config) (tid rid : List Nat) (rs : ℚ) (hop : HopInfo)
    (hgeo : config.EnableGeolocation = false) (hasn : config.EnableASNLookup = false) :
    ∀ kv ∈ (hopSpan config tid rid rs hop).attrs,
      kv.1 = "ttl" ∨ kv.1 = "ip" ∨ kv.1 = "latency.ms" ∨ kv.1 = "hostname" ∨
      kv.1 = "packet_loss.percent" ∨ kv.1 = "jitter.ms" := by
  intro kv hkv
  unfold hopSpan at hkv
  dsimp only at hkv
  simp only [hgeo, hasn, Bool.false_eq_true, false_and, if_false, List.append_nil,
    List.append_assoc, List.mem_append, List.mem_cons, List.mem_singleton,
    List.not_mem_nil, or_false, or_assoc] at hkv
  rcases hkv with rfl | rfl | rfl | hkv | hkv | hkv
  · simp
  · simp
  · simp
  · split at hkv
    · rw [List.mem_singleton.mp hkv]
      simp
    · simp at hkv
  · split at hkv
    · rw [List.mem_singleton.mp hkv]
      simp
    · simp at hkv
  · split at hkv
    · rw [List.mem_singleton.mp hkv]
      simp
    · simp at hkv

/-- C8: with geolocation and ASN enrichment both disabled, the two
projections are oblivious to the four enrichment fields: erasing
city/country/asn/provider from every hop changes neither batch, and no
data-point or span attribute uses the enrichment keys, even when the hop
records carry non-empty values in those fields. -/
theorem projections_enrichment_oblivious (config : Config) (result : TraceResult)
    (target : TargetConfig) (ts : Nat) (now1 now2 : ℚ)
    (hgeo : config.EnableGeolocation = false) (hasn : config.EnableASNLookup = false) :
    convertToMetrics config (scrubEnrichment result) target ts
        = convertToMetrics config result target ts ∧
    convertToTraces config (scrubEnrichment result) target now1 now2
        = convertToTraces config result target now1 now2 ∧
    (∀ m ∈ (convertToMetrics config result target ts).metrics, ∀ dp ∈ m.dps,
      ∀ kv ∈ dp.attrs,
      kv.1 ≠ "city" ∧ kv.1 ≠ "country" ∧ kv.1 ≠ "asn" ∧ kv.1 ≠ "provider") ∧
    (∀ s ∈ (convertToTraces config result target now1 now2).spans, ∀ kv ∈ s.attrs,
      kv.1 ≠ "geo.city" ∧ kv.1 ≠ "geo.country" ∧ kv.1 ≠ "network.asn" ∧
      kv.1 ≠ "network.provider") := by
  refine ⟨convertToMetrics_scrub config result target ts hgeo hasn,
    convertToTraces_scrub config result target now1 now2 hgeo hasn, ?_, ?_⟩
  · intro m hm dp hdp kv hkv
    unfold convertToMetrics at hm
    dsimp only at hm
    rcases List.mem_append.mp hm with h1 | h2
    · obtain ⟨l, hl, hml⟩ := List.mem_flatten.mp h1
      obtain ⟨hop, _, rfl⟩ := List.mem_map.mp hl
      rcases hopMetrics_dp_attrs config ts hop m hml dp hdp with ha | ha
      · rw [ha] at hkv
        rcases hopBaseAttrs_keys config hop hgeo hasn kv hkv with hk | hk | hk <;>
          rw [hk] <;>
          exact ⟨by decide, by decide, by decide, by decide⟩
      · rw [ha] at hkv
        rcases List.mem_cons.mp hkv with h3 | hkv2
        · have hk : kv.1 = "ttl" := by rw [h3]
          rw [hk]
          exact ⟨by decide, by decide, by decide, by decide⟩
        · have hk : kv.1 = "ip" := by rw [List.mem_singleton.mp hkv2]
          rw [hk]
          exact ⟨by decide, by decide, by decide, by decide⟩
    · rw [summaryMetrics_dp_attrs ts result m h2 dp hdp] at hkv
      simp at hkv
  · intro s hs kv hkv
    unfold convertToTraces at hs
    dsimp only at hs
    rcases List.mem_cons.mp hs with rfl | h2
    · dsimp only at hkv
      rcases List.mem_cons.mp hkv with h3 | hkv2
      · have hk : kv.1 = "hop.count" := by rw [h3]
        rw [hk]
        exact ⟨by decide, by decide, by decide, by decide⟩
      · have hk : kv.1 = "total.latency.ms" := by rw [List.mem_singleton.mp hkv2]
        rw [hk]
        exact ⟨by decide, by decide, by decide, by decide⟩
    · obtain ⟨hop, _, rfl⟩ := List.mem_map.mp h2
      rcases hopSpan_attr_keys config _ _ _ hop hgeo hasn kv hkv with
        hk | hk | hk | hk | hk | hk <;>
        rw [hk] <;>
        exact ⟨by decide, by decide, by decide, by decide⟩

/-- Witness for C8: with both flags off, scrubbing a populated result does
not change the metrics batch at a concrete input. -/
theorem projections_enrichment_oblivious_witness :
    convertToMetrics cfgW (scrubEnrichment resC8) tgtW 0
      = convertToMetrics cfgW resC8 tgtW 0 :=
  (projections_enrichment_oblivious cfgW resC8 tgtW 0 0 0 rfl rfl).1

lemma Validate_MaxHops_bounds (cfg : Config) (hv : Config.Validate cfg = none) :
    0 < cfg.MaxHops ∧ cfg.MaxHops ≤ 64 := by
  unfold Config.Validate at hv
  split at hv
  · exact absurd hv (by simp)
  · split at hv
    · exact absurd hv (by simp)
    · unfold validateGlobals at hv
      split_ifs at hv with h1 h2 h3 h4 h5 h6
      omega

lemma hopSpanIds_eq_range (config : Config) (addr : String)
    (rands : Nat → Rand) (tid rid : List Nat) (rs : ℚ) (m : Nat) (hm256 : m < 256) :
    ((List.range' 1 m).map (fun ttl => traceHop ttl addr config (rands ttl))).map
        (fun hop => (hopSpan config tid rid rs hop).spanId)
      = (List.range' 1 m).map (fun t => t :: List.replicate 7 0) := by
  rw [List.map_map]
  refine List.map_congr_left ?_
  intro t ht
  obtain ⟨i, hi, rfl⟩ := List.mem_range'.mp ht
  show (hopSpan config tid rid rs (traceHop (1 + 1 * i) addr config (rands (1 + 1 * i)))).spanId
    = (1 + 1 * i) :: List.replicate 7 0
  dsimp only [hopSpan]
  rw [traceHop_ttl]
  congr 1
  exact Nat.mod_eq_of_lt (by omega)

/-- C10: for a validated configuration (so MaxHops ≤ 64) and any result of
`trace`, the span identifiers inside one batch of `convertToTraces` are
pairwise distinct: the root span id is the all-zero 8-byte id, each hop
span's id starts with that hop's ttl (1..64, hence nonzero and below 256)
followed by seven zero bytes, and every hop span's parent span id equals the
root span's id. -/
theorem convertToTraces_spanIds_distinct
    (resolve : String → Option String) (ctxDone : Nat → Bool) (rands : Nat → Rand)
    (target target2 : TargetConfig) (config : Config) (res : TraceResult) (now1 now2 : ℚ)
    (hv : Config.Validate config = none)
    (hres : trace resolve ctxDone rands target config = .ok res) :
    ∃ root children,
      (convertToTraces config res target2 now1 now2).spans = root :: children ∧
      root.spanId = List.replicate 8 0 ∧
      (∀ c ∈ children, c.parentSpanId = root.spanId) ∧
      (∀ (i : Nat) (hi : i < children.length), ∃ hj : i < res.hops.length,
        (children.get ⟨i, hi⟩).spanId
          = (res.hops.get ⟨i, hj⟩).ttl :: List.replicate 7 0) ∧
      ((root :: children).map Span.spanId).Pairwise (fun a b => a ≠ b) := by
  obtain ⟨hpos, hle⟩ := Validate_MaxHops_bounds config hv
  obtain ⟨addr, hops, b, hr, hl, hresEq⟩ := trace_ok_elim hres
  subst hresEq
  obtain ⟨m, hm, h1m, hshape, hctx⟩ :=
    traceLoop_shape addr config ctxDone rands _ 1 [] hops b hl
  simp only [List.nil_append] at hshape
  have hm64 : m ≤ 64 := by omega
  have hlen : hops.length = m := by
    rw [hshape, List.length_map, List.length_range']
  refine ⟨_, _, rfl, rfl, ?_, ?_, ?_⟩
  · intro c hc
    dsimp only at hc
    obtain ⟨hop, _, rfl⟩ := List.mem_map.mp hc
    rfl
  · intro i hi
    dsimp only at hi ⊢
    rw [List.length_map] at hi
    refine ⟨hi, ?_⟩
    simp only [List.get_eq_getElem, List.getElem_map]
    dsimp only [hopSpan]
    congr 1
    refine Nat.mod_eq_of_lt ?_
    have hg : hops[i].ttl = 1 + i := by
      simp only [hshape, List.getElem_map, List.getElem_range']
      rw [traceHop_ttl]
      omega
    rw [hg]
    omega
  · dsimp only
    rw [List.map_cons, List.map_map]
    have hrw : List.map (Span.spanId ∘
        hopSpan config (List.replicate 16 0) (List.replicate 8 0)
          (now1 - ((goTruncMs (computeTotalLatency hops) : Int) : ℚ))) hops
        = (List.range' 1 m).map (fun t => t :: List.replicate 7 0) := by
      rw [hshape]
      exact hopSpanIds_eq_range config addr rands _ _ _ m (by omega)
    rw [hrw, List.pairwise_cons]
    constructor
    · intro x hx
      obtain ⟨t, ht, rfl⟩ := List.mem_map.mp hx
      obtain ⟨i, hi, rfl⟩ := List.mem_range'.mp ht
      intro heq
      have h0 : ((0 : Nat) :: List.replicate 7 0 : List Nat)
          = (1 + 1 * i) :: List.replicate 7 0 := heq
      injection h0 with hhead _
      omega
    · refine List.Pairwise.map _ ?_ (List.pairwise_lt_range' 1 m)
      intro a b hab heq
      injection heq with hhead _
      omega

/-- Witness for C10 at a concrete validated configuration and run. -/
theorem convertToTraces_spanIds_distinct_witness :
    ∃ root children,
      (convertToTraces cfgW resW tgtW 5 7).spans = root :: children ∧
      root.spanId = List.replicate 8 0 ∧
      ((root :: children).map Span.spanId).Pairwise (fun a b => a ≠ b) := by
  obtain ⟨root, children, h1, h2, _, _, h5⟩ :=
    convertToTraces_spanIds_distinct resolveW ctxFalseW randsW tgtW tgtW cfgW resW 5 7
      (by decide) (by decide)
  exact ⟨root, children, h1, h2, h5⟩

end ZTrace
